import Mathlib

/-!
Verification development for the UPager license server
(`license_server.py`).  The SQLite-backed Flask handlers are shallowly
embedded as pure Lean functions over an explicit `ServerState` record:

* table rows become structures, tables become lists kept in insertion
  (rowid) order, `fetchone` becomes `List.find?` on the row predicate of
  the corresponding `WHERE` clause;
* ISO-8601 timestamps are abstracted as integers measured in days, so
  `datetime.utcnow()` becomes an explicit `now : Int` argument of each
  operation and `timedelta(days=365)` becomes `+ 365`; string order on
  ISO timestamps agrees with this abstraction;
* SQLite's ASCII `UPPER`/Python `str.upper()` is `Char.toUpper` mapped
  over the characters, Python `str.strip()` is `strTrim`;
* the `secrets.token_hex(8)` byte source is passed in as an explicit
  list of byte values (`List Nat`, each `< 256`).

Each handler is translated statement by statement from the source; the
line numbers of `license_server.py` are cited next to each definition.
-/

set_option maxHeartbeats 1000000

namespace UL

/-! ## String helpers (SQLite `UPPER`, Python `.lower()`, `.strip()`, `in`) -/

/-- SQLite `UPPER(...)` / Python `.upper()`: ASCII uppercase, characterwise. -/
def upperStr (s : String) : String := ⟨s.data.map Char.toUpper⟩

/-- Python `.lower()`: ASCII lowercase, characterwise. -/
def lowerStr (s : String) : String := ⟨s.data.map Char.toLower⟩

/-- Strip leading and trailing whitespace from a character list. -/
def trimChars (l : List Char) : List Char :=
  ((l.dropWhile Char.isWhitespace).reverse.dropWhile Char.isWhitespace).reverse

/-- Python `str.strip()`. -/
def strTrim (s : String) : String := ⟨trimChars s.data⟩

/-- Python `str.startswith(p)`, as a character-list check. -/
def strStartsWith (s p : String) : Bool := p.data.isPrefixOf s.data

/-- Python `p in s` (substring containment) on character lists. -/
def containsSub (p : List Char) : List Char → Bool
  | [] => p.isEmpty
  | c :: rest => p.isPrefixOf (c :: rest) || containsSub p rest

/-! ## Data model (tables from `init_db`, lines 35–88) -/

/-- A row of the `licenses` table (lines 41–57).  The `id` and the
never-written `maintenance_expires_at` columns are omitted. -/
structure License where
  license_key : String
  email : String
  type : String
  tier : String
  billing_type : String
  status : String
  created_at : Int
  activated_at : Option Int
  expires_at : Option Int
  max_activations : Int
  current_activations : Int
  deriving DecidableEq, Repr

/-- A row of the `activations` table (lines 60–71); `id` omitted. -/
structure Activation where
  license_key : String
  machine_id : String
  ip_address : Option String
  activated_at : Int
  last_verified : Option Int
  status : String
  deriving DecidableEq, Repr

/-- A row of the `verification_log` table (lines 74–84); `id` omitted. -/
structure LogEntry where
  license_key : String
  machine_id : String
  timestamp : Int
  result : String
  message : String
  deriving DecidableEq, Repr

/-- The whole database, each table in rowid (insertion) order. -/
structure ServerState where
  licenses : List License
  activations : List Activation
  log : List LogEntry
  deriving DecidableEq, Repr

/-! ## Key generation (`generate_license_key`, lines 92–103) -/

/-- The lowercase hex digit for a nibble value (`0`–`9` then `a`–`f`),
as `%02x` formatting produces. -/
def hexDigit (n : Nat) : Char :=
  if n < 10 then Char.ofNat (48 + n) else Char.ofNat (87 + n)

/-- `secrets.token_hex`: each byte rendered as two lowercase hex digits. -/
def tokenHexChars : List Nat → List Char
  | [] => []
  | b :: rest => hexDigit (b / 16) :: hexDigit (b % 16) :: tokenHexChars rest

/-- `'-'.join(parts)` on character-list groups. -/
def joinDash : List (List Char) → List Char
  | [] => []
  | [g] => g
  | g :: gs => g ++ '-' :: joinDash gs

/-- `generate_license_key(tier)` (lines 92–103): 8 random bytes from
`secrets.token_hex(8)` are hex-encoded, uppercased, sliced into the four
groups `[0:4] [4:8] [8:12] [12:16]` and joined under the `UPAGER-`
prefix.  The byte source is the explicit `bytes` argument; `tier` is
accepted but unused, exactly as in the source. -/
def generate_license_key (tier : String) (bytes : List Nat) : String :=
  let randomHex := (tokenHexChars bytes).map Char.toUpper
  let parts := [randomHex.take 4, (randomHex.drop 4).take 4,
                (randomHex.drop 8).take 4, (randomHex.drop 12).take 4]
  ⟨"UPAGER-".data ++ joinDash parts⟩

/-! ## `create_license` (lines 105–137) -/

/-- Lines 113–118: derive `type` from the tier string. -/
def licenseTypeOf (tier : String) : String :=
  if strStartsWith tier "pro" then "pro"
  else if strStartsWith tier "enterprise" then "enterprise"
  else "free"

/-- Line 120: derive `billing_type` from the tier string. -/
def billingTypeOf (tier : String) : String :=
  if containsSub "lifetime".data tier.data then "one-time" else "annual"

/-- `create_license(email, tier, max_activations)` (lines 105–137).  The
freshly generated key is passed in as `key`; the `INSERT` fails with
`sqlite3.IntegrityError` (returning `None`) exactly when the `UNIQUE`
(binary-collated) constraint on `license_key` is violated. -/
def create_license (st : ServerState) (email tier : String) (maxActivations : Int)
    (key : String) (now : Int) : ServerState × Option String :=
  if st.licenses.any (fun l => l.license_key == key) then
    (st, none)
  else
    ({ st with licenses := st.licenses ++
        [{ license_key := key, email := email, type := licenseTypeOf tier,
           tier := tier, billing_type := billingTypeOf tier, status := "active",
           created_at := now, activated_at := none, expires_at := none,
           max_activations := maxActivations, current_activations := 0 }] },
     some key)

/-! ## `activate` (lines 139–280) -/

/-- Result of the `/activate` handler: the JSON payloads it can return. -/
inductive ActivateResult where
  | missingFields
  | error (msg : String)
  | success (type tier billing_type : String)
      (expires : Option Int) (maintenance_expires : Int)
  deriving DecidableEq, Repr

/-- Lines 160–165: `SELECT ... FROM licenses WHERE UPPER(license_key) =
UPPER(?)` with `fetchone` — the first row whose key matches
case-insensitively. -/
def findLicense (ls : List License) (key : String) : Option License :=
  ls.find? (fun l => upperStr l.license_key == upperStr key)

/-- Lines 194–197: `SELECT status FROM activations WHERE license_key = ?
AND machine_id = ?` — note the *case-sensitive* key comparison here. -/
def findActExact (acts : List Activation) (key machineId : String) : Option Activation :=
  acts.find? (fun a => a.license_key == key && a.machine_id == machineId)

/-- Lines 238–257 and 261–271: expiry computation and the conditional
`expires_at` first-write, shared by both activation branches.  `lic` is
the row fetched at the start of the call (so `lic.expires_at` is the
pre-call value, as in the Python local `expires_at`). -/
def finishActivate (st : ServerState) (lic : License) (key : String) (now : Int) :
    ServerState × ActivateResult :=
  let licenseExpires : Option Int :=
    if lic.billing_type == "one-time" then none else some (now + 365)
  let maintenanceExpires : Int := now + 365
  let st2 :=
    if lic.expires_at.isNone && licenseExpires.isSome then
      { st with licenses := st.licenses.map (fun l =>
          if l.license_key == key then { l with expires_at := licenseExpires } else l) }
    else st
  (st2, .success lic.type lic.tier lic.billing_type licenseExpires maintenanceExpires)

/-- The `/activate` handler (lines 139–280), after JSON decoding.
`key0`/`email0`/`machineId0` are the raw request fields (stripped on
lines 144–146); `ip` is `data.get('ip', request.remote_addr)`. -/
def activate (st : ServerState) (key0 email0 machineId0 ip : String) (now : Int) :
    ServerState × ActivateResult :=
  let key := strTrim key0
  let email := strTrim email0
  let machineId := strTrim machineId0
  if key == "" || email == "" || machineId == "" then (st, .missingFields)
  else
    match findLicense st.licenses key with
    | none => (st, .error "Invalid license key")
    | some lic =>
      if lic.status ≠ "active" then (st, .error ("License is " ++ lic.status))
      else if lowerStr email ≠ lowerStr lic.email then
        (st, .error "Email does not match license")
      else
        match findActExact st.activations key machineId with
        | some _ =>
          -- lines 201–209: re-activation, update last_verified / ip only
          finishActivate
            { st with activations := st.activations.map (fun a =>
                if a.license_key == key && a.machine_id == machineId then
                  { a with last_verified := some now, ip_address := some ip }
                else a) }
            lic key now
        | none =>
          -- lines 210–236: new activation behind the limit check
          if lic.max_activations ≤ lic.current_activations then
            (st, .error ("Maximum activations (" ++ toString lic.max_activations ++ ") reached"))
          else
            finishActivate
              { st with
                activations := st.activations ++
                  [{ license_key := key, machine_id := machineId, ip_address := some ip,
                     activated_at := now, last_verified := some now, status := "active" }],
                licenses := st.licenses.map (fun l =>
                  if l.license_key == key then
                    { l with current_activations := l.current_activations + 1,
                             activated_at := some (l.activated_at.getD now) }
                  else l) }
              lic key now

/-! ## `verify` (lines 282–393) -/

/-- Result of the `/verify` handler. -/
inductive VerifyResult where
  | missingFields
  | error (msg : String)
  | valid (type tier billing_type : String)
      (expires maintenance_expires : Option Int)
  deriving DecidableEq, Repr

/-- Lines 301–308: the `LEFT JOIN` arm — first activation row whose key
matches the license key case-insensitively and whose machine matches
exactly; `none` models the all-`NULL` join result. -/
def joinActivation (acts : List Activation) (licKey machineId : String) : Option Activation :=
  acts.find? (fun a => upperStr a.license_key == upperStr licKey && a.machine_id == machineId)

/-- Lines 344–351: annual licenses with a stored expiry in the strict
past are expired. -/
def isExpired (billing : String) (expiresAt : Option Int) (now : Int) : Bool :=
  billing == "annual" &&
    match expiresAt with
    | some e => now > e
    | none => false

/-- The `/verify` handler (lines 282–393), after JSON decoding. -/
def verify (st : ServerState) (key0 machineId0 : String) (now : Int) :
    ServerState × VerifyResult :=
  let key := strTrim key0
  let machineId := strTrim machineId0
  if key == "" || machineId == "" then (st, .missingFields)
  else
    match findLicense st.licenses key with
    | none =>
      -- lines 312–325: log the failed attempt, committed
      ({ st with log := st.log ++
          [{ license_key := key, machine_id := machineId, timestamp := now,
             result := "failed", message := "Invalid key" }] },
       .error "Invalid license key")
    | some lic =>
      let act := joinActivation st.activations lic.license_key machineId
      if lic.status ≠ "active" then (st, .error ("License is " ++ lic.status))
      else
        match act with
        | none => (st, .error "License not activated on this machine")
        | some a =>
          if isExpired lic.billing_type lic.expires_at now then
            (st, .error "License has expired")
          else
            -- lines 353–368: touch last_verified (case-sensitive key!) and log
            ({ st with
               activations := st.activations.map (fun x =>
                 if x.license_key == key && x.machine_id == machineId then
                   { x with last_verified := some now }
                 else x),
               log := st.log ++
                 [{ license_key := key, machine_id := machineId, timestamp := now,
                    result := "success", message := "Verified " ++ lic.tier }] },
             .valid lic.type lic.tier lic.billing_type lic.expires_at
               (if lic.billing_type == "one-time" then some (a.activated_at + 365)
                else lic.expires_at))

/-! ## `deactivate` (lines 395–454) -/

/-- Result of the `/deactivate` handler. -/
inductive DeactivateResult where
  | missingFields
  | error (msg : String)
  | success
  deriving DecidableEq, Repr

/-- The `/deactivate` handler (lines 395–454), after JSON decoding. -/
def deactivate (st : ServerState) (key0 machineId0 : String) :
    ServerState × DeactivateResult :=
  let key := strTrim key0
  let machineId := strTrim machineId0
  if key == "" || machineId == "" then (st, .missingFields)
  else if !(st.activations.any (fun a =>
      upperStr a.license_key == upperStr key && a.machine_id == machineId
        && a.status == "active")) then
    -- lines 413–423: no active activation found
    (st, .error "No active activation found")
  else
    -- lines 425–437: flip the rows (case-insensitive key), then decrement
    -- the counter with a *case-sensitive* key match
    ({ st with
       activations := st.activations.map (fun a =>
         if upperStr a.license_key == upperStr key && a.machine_id == machineId then
           { a with status := "deactivated" }
         else a),
       licenses := st.licenses.map (fun l =>
         if l.license_key == key then
           { l with current_activations := l.current_activations - 1 }
         else l) },
     .success)

/-! ## Derived notions used by the claims -/

/-- Number of `status='active'` activation rows referencing a license
key, compared case-insensitively (the count the spec's counter
invariant talks about). -/
def activeCountFor (st : ServerState) (key : String) : Nat :=
  (st.activations.filter (fun a =>
    upperStr a.license_key == upperStr key && a.status == "active")).length

/-- License keys are pairwise distinct case-insensitively.  `create`
generates keys that are already uppercase and the `UNIQUE` column
constraint rejects exact duplicates, so every reachable database
satisfies this. -/
def WellKeyed (st : ServerState) : Prop :=
  st.licenses.Pairwise (fun l1 l2 => upperStr l1.license_key ≠ upperStr l2.license_key)

/-- Every license's counter is within its activation limit. -/
def CountersOk (st : ServerState) : Prop :=
  ∀ l ∈ st.licenses, l.current_activations ≤ l.max_activations

/-- One `/activate` request (arguments plus its timestamp). -/
structure ActCall where
  key : String
  email : String
  machineId : String
  ip : String
  now : Int

/-- Run a sequence of `/activate` requests. -/
def runActivates (st : ServerState) : List ActCall → ServerState
  | [] => st
  | c :: rest => runActivates (activate st c.key c.email c.machineId c.ip c.now).fst rest

/-- An uppercase hexadecimal digit. -/
def isUpHexDigit (c : Char) : Bool :=
  (decide ('0' ≤ c) && decide (c ≤ '9')) || (decide ('A' ≤ c) && decide (c ≤ 'F'))

/-- The external key contract: exactly `UPAGER-XXXX-XXXX-XXXX-XXXX` with
each `X` an uppercase hex digit. -/
def keyFormatOk (s : String) : Bool :=
  match s.data with
  | 'U' :: 'P' :: 'A' :: 'G' :: 'E' :: 'R' :: '-' ::
    a1 :: a2 :: a3 :: a4 :: '-' :: b1 :: b2 :: b3 :: b4 :: '-' ::
    c1 :: c2 :: c3 :: c4 :: '-' :: d1 :: d2 :: d3 :: d4 :: [] =>
      [a1, a2, a3, a4, b1, b2, b3, b4, c1, c2, c3, c4, d1, d2, d3, d4].all isUpHexDigit
  | _ => false

/-- Split a character list into consecutive blocks of (at most) four. -/
def chunks4 : List Char → List (List Char)
  | [] => []
  | c1 :: c2 :: c3 :: c4 :: rest => [c1, c2, c3, c4] :: chunks4 rest
  | l => [l]

/-- The spec's own wording of the key source (§4.1): "16 bytes of
entropy, hex-encoded, uppercased, grouped in 4-character blocks joined
by hyphens" under the same prefix.  Declared only to compare the spec's
sourcing sentence against the code's `generate_license_key`. -/
def specKeyFromBytes (bytes : List Nat) : String :=
  ⟨"UPAGER-".data ++ joinDash (chunks4 ((tokenHexChars bytes).map Char.toUpper))⟩

/-! ## Sample data for concrete runs -/

/-- A freshly created `pro_lifetime` license with three seats. -/
def sampleLicense : License :=
  { license_key := "UPAGER-AAAA-BBBB-CCCC-DDDD", email := "a@x.com",
    tier := "pro_lifetime", type := "pro", billing_type := "one-time", status := "active",
    created_at := 0, activated_at := none, expires_at := none,
    max_activations := 3, current_activations := 0 }

/-- A database holding just `sampleLicense`. -/
def sampleState : ServerState := ⟨[sampleLicense], [], []⟩

/-- A freshly created `pro_annual` single-seat license. -/
def annualLicense : License :=
  { license_key := "UPAGER-9999-8888-7777-6666", email := "c@x.com",
    tier := "pro_annual", type := "pro", billing_type := "annual", status := "active",
    created_at := 0, activated_at := none, expires_at := none,
    max_activations := 1, current_activations := 0 }

/-- A deactivated activation row for `sampleLicense` on machine `M1`. -/
def deactivatedRow : Activation :=
  { license_key := "UPAGER-AAAA-BBBB-CCCC-DDDD", machine_id := "M1",
    ip_address := some "9.9.9.9", activated_at := 2, last_verified := some 3,
    status := "deactivated" }

/-- A single-seat license that has used up its one activation. -/
def maxedLicense : License :=
  { license_key := "UPAGER-AAAA-BBBB-CCCC-DDDD", email := "a@x.com",
    tier := "pro_annual", type := "pro", billing_type := "annual", status := "active",
    created_at := 0, activated_at := some 1, expires_at := some 366,
    max_activations := 1, current_activations := 1 }

/-- A database holding just `maxedLicense`. -/
def maxedState : ServerState := ⟨[maxedLicense], [], []⟩

/-- The license row `create_license` inserts for tier `pro_lifetime`
(lines 122–128 with the derivations of lines 113–120 applied). -/
def lifetimeRow (email key : String) (mx t0 : Int) : License :=
  { license_key := key, email := email, type := "pro",
    tier := "pro_lifetime", billing_type := "one-time", status := "active",
    created_at := t0, activated_at := none, expires_at := none,
    max_activations := mx, current_activations := 0 }

/-! # Theorems -/

/-! ## General-purpose lemmas -/

lemma upperStr_data (s : String) : (upperStr s).data = s.data.map Char.toUpper := rfl

lemma isPrefixOf_iff (p s : List Char) : p.isPrefixOf s = true ↔ ∃ r, s = p ++ r := by
  induction p generalizing s with
  | nil => simpa [List.isPrefixOf] using ⟨s, rfl⟩
  | cons a as ih =>
    cases s with
    | nil =>
      simp only [List.isPrefixOf, List.cons_append]
      constructor
      · intro h; cases h
      · rintro ⟨r, hr⟩; cases hr
    | cons b bs =>
      simp only [List.isPrefixOf, Bool.and_eq_true, beq_iff_eq, ih, List.cons_append]
      constructor
      · rintro ⟨rfl, r, rfl⟩; exact ⟨r, rfl⟩
      · rintro ⟨r, hr⟩
        injection hr with h1 h2
        exact ⟨h1.symm, r, h2⟩

lemma containsSub_iff (p s : List Char) :
    containsSub p s = true ↔ ∃ l r, s = l ++ (p ++ r) := by
  induction s with
  | nil =>
    simp only [containsSub, List.isEmpty_iff]
    constructor
    · intro h; exact ⟨[], [], by simp [h]⟩
    · rintro ⟨l, r, hr⟩
      rcases List.append_eq_nil.mp hr.symm with ⟨_, h2⟩
      rcases List.append_eq_nil.mp h2 with ⟨h3, _⟩
      exact h3
  | cons c cs ih =>
    simp only [containsSub, Bool.or_eq_true, isPrefixOf_iff, ih]
    constructor
    · rintro (⟨r, hr⟩ | ⟨l, r, hr⟩)
      · exact ⟨[], r, by simpa using hr⟩
      · exact ⟨c :: l, r, by simp [hr]⟩
    · rintro ⟨l, r, hr⟩
      cases l with
      | nil => exact Or.inl ⟨r, by simpa using hr⟩
      | cons x xs =>
        injection hr with h1 h2
        exact Or.inr ⟨xs, r, h2⟩

lemma map_eq_self_of_eq {α : Type} (f : α → α) (l : List α)
    (h : ∀ a ∈ l, f a = a) : l.map f = l := by
  calc l.map f = l.map id := List.map_congr_left h
  _ = l := List.map_id l

/-! ## C1 -/

/-- C1: the claim that after every public call `current_activations`
equals the number of active activation rows referencing the license
(case-insensitively) fails on the code: activating `sampleLicense` with
the case-variant key `upager-aaaa-bbbb-cccc-dddd` succeeds and inserts
an active activation row, yet the counter `UPDATE` matches the license
key case-sensitively and increments nothing, so the counter stays `0`
while the active-row count is `1`. -/
theorem C1_counter_drifts_on_case_variant_activate :
    (activate sampleState "upager-aaaa-bbbb-cccc-dddd" "a@x.com" "M1" "1.2.3.4" 10).snd
      = ActivateResult.success "pro" "pro_lifetime" "one-time" none 375 ∧
    activeCountFor
      (activate sampleState "upager-aaaa-bbbb-cccc-dddd" "a@x.com" "M1" "1.2.3.4" 10).fst
      "UPAGER-AAAA-BBBB-CCCC-DDDD" = 1 ∧
    ((activate sampleState "upager-aaaa-bbbb-cccc-dddd" "a@x.com" "M1" "1.2.3.4" 10).fst.licenses.map
      (fun l => l.current_activations)) = [0] := by
  refine ⟨?_, ?_, ?_⟩ <;> decide

/-! ## C2 -/

/-- C5: the lifetime round-trip.  Creating a `pro_lifetime` license
(with at least one seat, under a fresh key) and activating it on a
machine makes a later `verify` for the same pair answer `valid=true`
with `expires = null` and `maintenance_expires` equal to the
activation's `activated_at` plus 365 days. -/
theorem C5_lifetime_roundtrip (st : ServerState) (email key machine ip : String)
    (mx : Int) (t0 t1 t2 : Int)
    (hk : strTrim key = key) (hk0 : key ≠ "")
    (he : strTrim email = email) (he0 : email ≠ "")
    (hm : strTrim machine = machine) (hm0 : machine ≠ "")
    (hmx : 1 ≤ mx)
    (hfresh : ∀ l ∈ st.licenses, upperStr l.license_key ≠ upperStr key)
    (hact : ∀ a ∈ st.activations,
      upperStr a.license_key ≠ upperStr key ∨ a.machine_id ≠ machine) :
    (create_license st email "pro_lifetime" mx key t0).snd = some key ∧
    (activate (create_license st email "pro_lifetime" mx key t0).fst
        key email machine ip t1).snd
      = ActivateResult.success "pro" "pro_lifetime" "one-time" none (t1 + 365) ∧
    (verify (activate (create_license st email "pro_lifetime" mx key t0).fst
        key email machine ip t1).fst key machine t2).snd
      = VerifyResult.valid "pro" "pro_lifetime" "one-time" none (some (t1 + 365)) := by
  have hdup : (st.licenses.any fun l => l.license_key == key) = false := by
    rw [List.any_eq_false]
    intro l hl
    simp only [beq_iff_eq]
    intro hle
    exact hfresh l hl (by rw [hle])
  have hcr : create_license st email "pro_lifetime" mx key t0 =
      ({ st with licenses := st.licenses ++ [lifetimeRow email key mx t0] }, some key) := by
    simp only [create_license, hdup]
    rfl
  have hkb : (key == "") = false := by simp [hk0]
  have heb : (email == "") = false := by simp [he0]
  have hmb : (machine == "") = false := by simp [hm0]
  have hfind_st : List.find? (fun l => upperStr l.license_key == upperStr key) st.licenses
      = none := by
    rw [List.find?_eq_none]
    intro l hl
    simp only [beq_iff_eq]
    exact hfresh l hl
  have hfl1 : findLicense (st.licenses ++ [lifetimeRow email key mx t0]) key
      = some (lifetimeRow email key mx t0) := by
    unfold findLicense
    rw [List.find?_append, hfind_st]
    simp [lifetimeRow]
  have hfa1 : findActExact st.activations key machine = none := by
    unfold findActExact
    rw [List.find?_eq_none]
    intro a ha
    simp only [Bool.and_eq_true, beq_iff_eq]
    rintro ⟨h1, h2⟩
    rcases hact a ha with h | h
    · exact h (by rw [h1])
    · exact h h2
  have hnl : ¬((lifetimeRow email key mx t0).max_activations
      ≤ (lifetimeRow email key mx t0).current_activations) := by
    show ¬(mx ≤ (0 : Int))
    omega
  have hactEq : activate { st with licenses := st.licenses ++ [lifetimeRow email key mx t0] }
      key email machine ip t1 =
      ({ licenses := (st.licenses ++ [lifetimeRow email key mx t0]).map (fun l =>
           if l.license_key == key then
             { l with current_activations := l.current_activations + 1,
                      activated_at := some (l.activated_at.getD t1) }
           else l),
         activations := st.activations ++
           [{ license_key := key, machine_id := machine, ip_address := some ip,
              activated_at := t1, last_verified := some t1, status := "active" }],
         log := st.log },
       ActivateResult.success "pro" "pro_lifetime" "one-time" none (t1 + 365)) := by
    simp only [activate, hk, he, hm, hkb, heb, hmb, Bool.or_self, Bool.false_or, hfl1, hfa1]
    rw [if_neg hnl]
    simp [finishActivate, lifetimeRow]
  have hfl2 : findLicense ((st.licenses ++ [lifetimeRow email key mx t0]).map (fun l =>
      if l.license_key == key then
        { l with current_activations := l.current_activations + 1,
                 activated_at := some (l.activated_at.getD t1) }
      else l)) key
      = some { license_key := key, email := email, type := "pro",
               tier := "pro_lifetime", billing_type := "one-time", status := "active",
               created_at := t0, activated_at := some t1, expires_at := none,
               max_activations := mx, current_activations := 0 + 1 } := by
    unfold findLicense
    rw [List.find?_map]
    have hcomp : ((fun (l : License) => upperStr l.license_key == upperStr key)
        ∘ (fun (l : License) =>
        if l.license_key == key then
          { l with current_activations := l.current_activations + 1,
                   activated_at := some (l.activated_at.getD t1) }
        else l)) = (fun l => upperStr l.license_key == upperStr key) := by
      funext l
      dsimp only [Function.comp]
      split <;> rfl
    rw [hcomp, List.find?_append, hfind_st]
    simp [lifetimeRow]
  have hja2 : joinActivation (st.activations ++
      [{ license_key := key, machine_id := machine, ip_address := some ip,
         activated_at := t1, last_verified := some t1, status := "active" }]) key machine
      = some { license_key := key, machine_id := machine, ip_address := some ip,
               activated_at := t1, last_verified := some t1, status := "active" } := by
    unfold joinActivation
    rw [List.find?_append]
    have hnone : List.find? (fun a =>
        upperStr a.license_key == upperStr key && a.machine_id == machine)
        st.activations = none := by
      rw [List.find?_eq_none]
      intro a ha
      simp only [Bool.and_eq_true, beq_iff_eq]
      rintro ⟨h1, h2⟩
      rcases hact a ha with h | h
      · exact h h1
      · exact h h2
    rw [hnone]
    simp
  refine ⟨by rw [hcr], ?_, ?_⟩
  · rw [hcr, hactEq]
  · rw [hcr, hactEq]
    simp only [verify, hk, hm, hkb, hmb, Bool.or_self, Bool.false_or, hfl2, hja2]
    rfl

/-- C5 witness: the round-trip on an initially empty database. -/
theorem C5_witness :
    (create_license ⟨[], [], []⟩ "b@x.com" "pro_lifetime" 1
        "UPAGER-1111-2222-3333-4444" 0).snd = some "UPAGER-1111-2222-3333-4444" ∧
    (activate (create_license ⟨[], [], []⟩ "b@x.com" "pro_lifetime" 1
          "UPAGER-1111-2222-3333-4444" 0).fst
        "UPAGER-1111-2222-3333-4444" "b@x.com" "M1" "ip" 5).snd
      = ActivateResult.success "pro" "pro_lifetime" "one-time" none (5 + 365) ∧
    (verify (activate (create_license ⟨[], [], []⟩ "b@x.com" "pro_lifetime" 1
          "UPAGER-1111-2222-3333-4444" 0).fst
        "UPAGER-1111-2222-3333-4444" "b@x.com" "M1" "ip" 5).fst
        "UPAGER-1111-2222-3333-4444" "M1" 7).snd
      = VerifyResult.valid "pro" "pro_lifetime" "one-time" none (some (5 + 365)) :=
  C5_lifetime_roundtrip ⟨[], [], []⟩ "b@x.com" "UPAGER-1111-2222-3333-4444" "M1" "ip"
    1 0 5 7 (by decide) (by decide) (by decide) (by decide) (by decide) (by decide)
    (by decide) (by decide) (by decide)

/-! ## C6 -/

/-- C6: a created license's `type` and `billing_type` are the stated
pure functions of the tier string: `type` is `"pro"`/`"enterprise"`
by prefix, else `"free"`; `billing_type` is `"one-time"` exactly when
`"lifetime"` occurs as a substring of the tier (the final two
conjuncts pin the Boolean tests to genuine prefix/substring
decompositions). -/
theorem C6_type_and_billing_derive_from_tier
    (st : ServerState) (email tier : String) (mx : Int) (key : String) (now : Int)
    (k : String) (h : (create_license st email tier mx key now).snd = some k) :
    ∃ L : License,
      (create_license st email tier mx key now).fst.licenses = st.licenses ++ [L] ∧
      L.tier = tier ∧
      L.type = (if strStartsWith tier "pro" then "pro"
                else if strStartsWith tier "enterprise" then "enterprise" else "free") ∧
      L.billing_type =
        (if containsSub "lifetime".data tier.data then "one-time" else "annual") ∧
      (strStartsWith tier "pro" = true ↔ ∃ r, tier.data = "pro".data ++ r) ∧
      (containsSub "lifetime".data tier.data = true ↔
        ∃ l r, tier.data = l ++ ("lifetime".data ++ r)) := by
  unfold create_license at h ⊢
  split at h
  · exact absurd h (by simp)
  · rename_i hc
    rw [if_neg hc]
    exact ⟨_, rfl, rfl, rfl, rfl, isPrefixOf_iff _ _, containsSub_iff _ _⟩

/-- C6 witness: creating a `pro_lifetime` license in the empty database
stores `type = "pro"` and `billing_type = "one-time"`. -/
theorem C6_witness :
    ∃ L : License,
      (create_license ⟨[], [], []⟩ "b@x.com" "pro_lifetime" 1 "UPAGER-1111-2222-3333-4444" 0).fst.licenses
        = [] ++ [L] ∧
      L.tier = "pro_lifetime" ∧
      L.type = (if strStartsWith "pro_lifetime" "pro" then "pro"
                else if strStartsWith "pro_lifetime" "enterprise" then "enterprise" else "free") ∧
      L.billing_type =
        (if containsSub "lifetime".data "pro_lifetime".data then "one-time" else "annual") ∧
      (strStartsWith "pro_lifetime" "pro" = true ↔ ∃ r, "pro_lifetime".data = "pro".data ++ r) ∧
      (containsSub "lifetime".data "pro_lifetime".data = true ↔
        ∃ l r, "pro_lifetime".data = l ++ ("lifetime".data ++ r)) :=
  C6_type_and_billing_derive_from_tier ⟨[], [], []⟩ "b@x.com" "pro_lifetime" 1
    "UPAGER-1111-2222-3333-4444" 0 "UPAGER-1111-2222-3333-4444" (by decide)

/-! ## C3 -/

lemma upper_ne_symm : Symmetric (fun (l1 l2 : License) =>
    upperStr l1.license_key ≠ upperStr l2.license_key) :=
  fun _ _ h e => h e.symm

lemma wellKeyed_unique {st : ServerState} {a b : License} (hw : WellKeyed st)
    (ha : a ∈ st.licenses) (hb : b ∈ st.licenses)
    (h : upperStr a.license_key = upperStr b.license_key) : a = b := by
  by_contra hne
  exact List.Pairwise.forall upper_ne_symm hw ha hb hne h

lemma countersOk_finishActivate (st : ServerState) (lic : License) (key : String) (now : Int)
    (h : CountersOk st) : CountersOk (finishActivate st lic key now).fst := by
  simp only [finishActivate]
  split <;> split
  all_goals
    first
    | exact h
    | (intro l' hl'
       rcases List.mem_map.mp hl' with ⟨l, hl, rfl⟩
       by_cases hk : (l.license_key == key) = true
       · rw [if_pos hk]; exact h l hl
       · rw [if_neg hk]; exact h l hl)

lemma countersOk_activate (st : ServerState) (k e m i : String) (t : Int)
    (hw : WellKeyed st) (hc : CountersOk st) :
    CountersOk (activate st k e m i t).fst := by
  simp only [activate]
  split
  · exact hc
  split
  · exact hc
  split
  · exact hc
  split
  · exact hc
  split
  · exact countersOk_finishActivate _ _ _ _ hc
  split
  · exact hc
  rename_i x lic heq hst hem act hfa hlim
  apply countersOk_finishActivate
  intro l' hl'
  rcases List.mem_map.mp hl' with ⟨l, hl, rfl⟩
  by_cases hk : (l.license_key == strTrim k) = true
  · rw [if_pos hk]
    have hlic_mem := List.mem_of_find?_eq_some heq
    have hlic_pred := List.find?_some heq
    have hup : upperStr l.license_key = upperStr lic.license_key := by
      rw [beq_iff_eq.mp hk]
      exact (beq_iff_eq.mp hlic_pred).symm
    have hll : l = lic := wellKeyed_unique hw hl hlic_mem hup
    subst hll
    show l.current_activations + 1 ≤ l.max_activations
    omega
  · rw [if_neg hk]
    exact hc l hl

lemma wellKeyed_iff (st : ServerState) :
    WellKeyed st ↔ (st.licenses.map (fun l => l.license_key)).Pairwise
      (fun a b => upperStr a ≠ upperStr b) :=
  (@List.pairwise_map License String (fun l => l.license_key)
    (fun a b => upperStr a ≠ upperStr b) st.licenses).symm

lemma keys_map_of_update (ls : List License) (f : License → License)
    (hf : ∀ l, (f l).license_key = l.license_key) :
    (ls.map f).map (fun l => l.license_key) = ls.map (fun l => l.license_key) := by
  rw [List.map_map]
  exact List.map_congr_left (fun a _ => hf a)

lemma finishActivate_keys (st : ServerState) (lic : License) (key : String) (now : Int) :
    (finishActivate st lic key now).fst.licenses.map (fun l => l.license_key)
      = st.licenses.map (fun l => l.license_key) := by
  simp only [finishActivate]
  split <;> split
  all_goals
    first
    | rfl
    | (apply keys_map_of_update
       intro l
       split <;> rfl)

lemma activate_keys (st : ServerState) (k e m i : String) (t : Int) :
    (activate st k e m i t).fst.licenses.map (fun l => l.license_key)
      = st.licenses.map (fun l => l.license_key) := by
  simp only [activate]
  split
  · rfl
  split
  · rfl
  split
  · rfl
  split
  · rfl
  split
  · exact finishActivate_keys _ _ _ _
  split
  · rfl
  rw [finishActivate_keys]
  apply keys_map_of_update
  intro l
  split <;> rfl

lemma wellKeyed_activate (st : ServerState) (k e m i : String) (t : Int)
    (hw : WellKeyed st) : WellKeyed (activate st k e m i t).fst := by
  rw [wellKeyed_iff, activate_keys]
  exact (wellKeyed_iff st).mp hw

lemma countersOk_runActivates (calls : List ActCall) (st : ServerState)
    (hw : WellKeyed st) (hc : CountersOk st) : CountersOk (runActivates st calls) := by
  induction calls generalizing st with
  | nil => exact hc
  | cons c rest ih =>
    exact ih _ (wellKeyed_activate _ _ _ _ _ _ hw) (countersOk_activate _ _ _ _ _ _ hw hc)

lemma activate_refuses (st : ServerState) (k e m i : String) (t : Int) (lic : License)
    (hk0 : strTrim k ≠ "") (he0 : strTrim e ≠ "") (hm0 : strTrim m ≠ "")
    (hf : findLicense st.licenses (strTrim k) = some lic)
    (hst : lic.status = "active")
    (hem : lowerStr (strTrim e) = lowerStr lic.email)
    (hfa : findActExact st.activations (strTrim k) (strTrim m) = none)
    (hlim : lic.max_activations ≤ lic.current_activations) :
    activate st k e m i t =
      (st, ActivateResult.error
        ("Maximum activations (" ++ toString lic.max_activations ++ ") reached")) := by
  simp only [activate, hf, hfa]
  simp [hk0, he0, hm0, hst, hem, hlim]

/-- C3: on databases whose license keys are pairwise distinct
case-insensitively (which `create` guarantees), any sequence of
`activate` calls preserves `current_activations ≤ max_activations` for
every license; `activate` refuses with the `Maximum activations (N)
reached` error — leaving the state untouched — whenever the resolved
license is at or over its limit and the machine has no existing exact
activation row; and `activate` is the only operation that increments
the counter: `verify` leaves the license table unchanged, `deactivate`
only ever decrements, and `create` only appends licenses with counter
zero. -/
theorem C3_activation_limit_enforced :
    (∀ st calls, WellKeyed st → CountersOk st → CountersOk (runActivates st calls)) ∧
    (∀ st k e m i t lic,
      strTrim k ≠ "" → strTrim e ≠ "" → strTrim m ≠ "" →
      findLicense st.licenses (strTrim k) = some lic →
      lic.status = "active" →
      lowerStr (strTrim e) = lowerStr lic.email →
      findActExact st.activations (strTrim k) (strTrim m) = none →
      lic.max_activations ≤ lic.current_activations →
      activate st k e m i t =
        (st, ActivateResult.error
          ("Maximum activations (" ++ toString lic.max_activations ++ ") reached"))) ∧
    (∀ st k m t, (verify st k m t).fst.licenses = st.licenses) ∧
    (∀ st k m, ∃ f, (deactivate st k m).fst.licenses = st.licenses.map f ∧
      ∀ l, (f l).current_activations ≤ l.current_activations) ∧
    (∀ st e tr mx key now, ∃ tail, (create_license st e tr mx key now).fst.licenses
      = st.licenses ++ tail ∧ ∀ l ∈ tail, l.current_activations = 0) := by
  refine ⟨fun st calls hw hc => countersOk_runActivates calls st hw hc,
    fun st k e m i t lic hk he hm hf hst hem hfa hlim =>
      activate_refuses st k e m i t lic hk he hm hf hst hem hfa hlim,
    ?_, ?_, ?_⟩
  · intro st k m t
    simp only [verify]
    split
    · rfl
    split
    · rfl
    split
    · rfl
    split
    · rfl
    split <;> rfl
  · intro st k m
    simp only [deactivate]
    split
    · exact ⟨id, (List.map_id _).symm, fun l => le_refl _⟩
    split
    · exact ⟨id, (List.map_id _).symm, fun l => le_refl _⟩
    refine ⟨_, rfl, fun l => ?_⟩
    dsimp only
    split
    · show l.current_activations - 1 ≤ l.current_activations
      omega
    · exact le_refl _
  · intro st e tr mx key now
    simp only [create_license]
    split
    · exact ⟨[], (List.append_nil _).symm, by simp⟩
    · refine ⟨_, rfl, ?_⟩
      intro l hl
      rcases List.mem_singleton.mp hl with rfl
      rfl

/-- C3 witness: two activations on a 3-seat license keep the invariant,
and a third machine on a saturated single-seat license is refused with
the state unchanged. -/
theorem C3_witness :
    CountersOk (runActivates sampleState
      [⟨"UPAGER-AAAA-BBBB-CCCC-DDDD", "a@x.com", "M1", "ip", 5⟩,
       ⟨"UPAGER-AAAA-BBBB-CCCC-DDDD", "a@x.com", "M2", "ip", 6⟩]) ∧
    activate maxedState "UPAGER-AAAA-BBBB-CCCC-DDDD" "a@x.com" "M9" "ip" 7 =
      (maxedState, ActivateResult.error
        ("Maximum activations (" ++ toString maxedLicense.max_activations ++ ") reached")) :=
  ⟨C3_activation_limit_enforced.1 sampleState _
      (by unfold WellKeyed; decide) (by unfold CountersOk; decide),
   C3_activation_limit_enforced.2.1 maxedState "UPAGER-AAAA-BBBB-CCCC-DDDD" "a@x.com"
     "M9" "ip" 7 maxedLicense
     (by decide) (by decide) (by decide) (by decide) (by decide) (by decide)
     (by decide) (by decide)⟩

/-! ## C8 -/

lemma license_is_ne_invalid (s : String) : ("License is " ++ s) ≠ "Invalid license key" := by
  intro h
  have hd : "License is ".data ++ s.data = "Invalid license key".data := congrArg String.data h
  simp at hd

lemma finishActivate_log (st : ServerState) (lic : License) (key : String) (now : Int) :
    (finishActivate st lic key now).fst.log = st.log := by
  simp only [finishActivate]
  split <;> split <;> rfl

lemma activate_log (st : ServerState) (k e m i : String) (t : Int) :
    (activate st k e m i t).fst.log = st.log := by
  simp only [activate]
  split
  · rfl
  · split
    · rfl
    · split
      · rfl
      · split
        · rfl
        · split
          · exact finishActivate_log _ _ _ _
          · split
            · rfl
            · exact finishActivate_log _ _ _ _

/-- C8 counterexample: a `verify` call that answers `valid=false`
("not activated on this machine") appends **no** verification-log row,
refuting "every call to verify ... appends exactly one
VerificationLogEntry row". -/
theorem C8_not_every_verify_call_logs :
    (verify ⟨[sampleLicense], [], []⟩ "UPAGER-AAAA-BBBB-CCCC-DDDD" "M1" 10).snd
      = VerifyResult.error "License not activated on this machine" ∧
    (verify ⟨[sampleLicense], [], []⟩ "UPAGER-AAAA-BBBB-CCCC-DDDD" "M1" 10).fst.log = [] := by
  refine ⟨?_, ?_⟩ <;> decide

/-- C8 (amended): the verification log is append-only — no operation
ever mutates or deletes an existing row; `activate`, `create` and
`deactivate` never touch it, and each `verify` call appends at most one
row, appending exactly one precisely on the invalid-key path and on the
success path (the not-active / not-activated-here / expired / missing
fields branches append none). -/
theorem C8_log_append_only :
    (∀ st k e m i t, (activate st k e m i t).fst.log = st.log) ∧
    (∀ st e tr mx key now, (create_license st e tr mx key now).fst.log = st.log) ∧
    (∀ st k m, (deactivate st k m).fst.log = st.log) ∧
    (∀ st k m t, ∃ zs : List LogEntry,
      (verify st k m t).fst.log = st.log ++ zs ∧ zs.length ≤ 1 ∧
      (zs.length = 1 ↔ ((verify st k m t).snd = VerifyResult.error "Invalid license key" ∨
        ∃ a b c d e, (verify st k m t).snd = VerifyResult.valid a b c d e))) := by
  refine ⟨activate_log, ?_, ?_, ?_⟩
  · intro st e tr mx key now
    simp only [create_license]
    split <;> rfl
  · intro st k m
    simp only [deactivate]
    split
    · rfl
    · split <;> rfl
  · intro st k m t
    simp only [verify]
    split
    · exact ⟨[], by simp⟩
    · split
      · exact ⟨[{ license_key := strTrim k, machine_id := strTrim m, timestamp := t,
                  result := "failed", message := "Invalid key" }], by simp⟩
      · split
        · exact ⟨[], by simp [license_is_ne_invalid]⟩
        · split
          · exact ⟨[], by simp⟩
          · split
            · exact ⟨[], by simp⟩
            · rename_i x lic heq hst act arow hja hex
              exact ⟨[{ license_key := strTrim k, machine_id := strTrim m, timestamp := t,
                        result := "success", message := "Verified " ++ lic.tier }], by simp⟩

/-! ## C4 -/

lemma finishActivate_acts (st : ServerState) (lic : License) (key : String) (now : Int) :
    (finishActivate st lic key now).fst.activations = st.activations := by
  simp only [finishActivate]
  split <;> split <;> rfl

lemma findLicense_map (ls : List License) (kt : String) (f : License → License)
    (hf : ∀ l, (f l).license_key = l.license_key) :
    findLicense (ls.map f) kt = Option.map f (findLicense ls kt) := by
  unfold findLicense
  rw [List.find?_map]
  have hp : ((fun (l : License) => upperStr l.license_key == upperStr kt) ∘ f)
      = (fun l => upperStr l.license_key == upperStr kt) := by
    funext l
    simp [Function.comp, hf]
  rw [hp]

lemma findActExact_map (acts : List Activation) (kt mt : String) (f : Activation → Activation)
    (hk : ∀ a, (f a).license_key = a.license_key)
    (hm : ∀ a, (f a).machine_id = a.machine_id) :
    findActExact (acts.map f) kt mt = Option.map f (findActExact acts kt mt) := by
  unfold findActExact
  rw [List.find?_map]
  have hp : ((fun (a : Activation) => a.license_key == kt && a.machine_id == mt) ∘ f)
      = (fun a => a.license_key == kt && a.machine_id == mt) := by
    funext a
    simp [Function.comp, hk, hm]
  rw [hp]

lemma wellKeyed_of_keys_eq {st1 st0 : ServerState}
    (h : st1.licenses.map (fun l => l.license_key) = st0.licenses.map (fun l => l.license_key))
    (hw : WellKeyed st0) : WellKeyed st1 := by
  rw [wellKeyed_iff, h]
  exact (wellKeyed_iff st0).mp hw

/-- Behavior of `activate` when the checks pass and an exact activation
row already exists: the re-activation path only touches that row's
`last_verified`/`ip_address`, and (on well-keyed stores where the
expiry first-write cannot fire a second time) leaves licenses and log
alone while still returning success. -/
lemma second_call_after (st0 : ServerState) (k e m i : String) (t2 : Int) (lic1 : License)
    (hw1 : WellKeyed st0)
    (hkb : (strTrim k == "") = false) (heb : (strTrim e == "") = false)
    (hmb : (strTrim m == "") = false)
    (hf : findLicense st0.licenses (strTrim k) = some lic1)
    (hst : lic1.status = "active")
    (hem : lowerStr (strTrim e) = lowerStr lic1.email)
    (hfa : (findActExact st0.activations (strTrim k) (strTrim m)).isSome = true)
    (hnoexp : lic1.expires_at.isNone = true →
      (lic1.billing_type == "one-time") = true ∨ (lic1.license_key == strTrim k) = false) :
    ∃ ty' tr' bi' ex' ma',
      (activate st0 k e m i t2).snd = ActivateResult.success ty' tr' bi' ex' ma' ∧
      (activate st0 k e m i t2).fst.licenses = st0.licenses ∧
      (activate st0 k e m i t2).fst.log = st0.log ∧
      (activate st0 k e m i t2).fst.activations = st0.activations.map (fun a =>
        if a.license_key == strTrim k && a.machine_id == strTrim m then
          { a with last_verified := some t2, ip_address := some i }
        else a) := by
  obtain ⟨a0, ha0⟩ := Option.isSome_iff_exists.mp hfa
  have hrun : activate st0 k e m i t2 =
      finishActivate { st0 with activations := st0.activations.map (fun a =>
        if a.license_key == strTrim k && a.machine_id == strTrim m then
          { a with last_verified := some t2, ip_address := some i }
        else a) } lic1 (strTrim k) t2 := by
    simp only [activate, hkb, heb, hmb, Bool.or_self, Bool.false_or, hf, ha0]
    rw [hst, hem]
    simp
  rw [hrun]
  refine ⟨lic1.type, lic1.tier, lic1.billing_type,
    (if lic1.billing_type == "one-time" then none else some (t2 + 365)), t2 + 365,
    ?_, ?_, ?_, ?_⟩
  · simp only [finishActivate]
  · simp only [finishActivate]
    split
    · simp
    · rename_i hbil_ne
      split
      · rename_i hcond
        have hisnone : lic1.expires_at.isNone = true := by
          simpa using hcond
        have hbil : (lic1.billing_type == "one-time") = false := by
          revert hbil_ne
          cases lic1.billing_type == "one-time" <;> simp
        have hkey : (lic1.license_key == strTrim k) = false := by
          rcases hnoexp hisnone with h | h
          · rw [h] at hbil
            cases hbil
          · exact h
        have hlicmem := List.mem_of_find?_eq_some hf
        have hlicpred := List.find?_some hf
        apply map_eq_self_of_eq
        intro l hl
        have hlk : (l.license_key == strTrim k) = false := by
          by_cases hx : (l.license_key == strTrim k) = true
          · have hup : upperStr l.license_key = upperStr lic1.license_key := by
              rw [beq_iff_eq.mp hx]
              exact (beq_iff_eq.mp hlicpred).symm
            have hle : l = lic1 := wellKeyed_unique hw1 hl hlicmem hup
            subst hle
            rw [hx] at hkey
            cases hkey
          · revert hx
            cases l.license_key == strTrim k <;> simp
        rw [if_neg (by simp [hlk])]
      · rfl
  · exact finishActivate_log _ _ _ _
  · exact finishActivate_acts _ _ _ _


/-- What `findLicense` sees after `finishActivate`: some license row that
agrees with the pre-`finishActivate` find on everything but possibly
`expires_at`, and for which the expiry first-write can no longer fire. -/
lemma findLicense_finish (stT : ServerState) (lic licF : License) (kt : String) (t : Int)
    (hf : findLicense stT.licenses kt = some licF)
    (hb : licF.billing_type = lic.billing_type)
    (hx : licF.expires_at = lic.expires_at) :
    ∃ lic1, findLicense (finishActivate stT lic kt t).fst.licenses kt = some lic1 ∧
      lic1.status = licF.status ∧ lic1.email = licF.email ∧
      lic1.billing_type = licF.billing_type ∧
      (lic1.expires_at.isNone = true →
        (lic1.billing_type == "one-time") = true ∨ (lic1.license_key == kt) = false) := by
  simp only [finishActivate]
  split
  · rename_i hbil
    split
    · rename_i hc
      simp at hc
    · refine ⟨licF, hf, rfl, rfl, rfl, fun _ => Or.inl ?_⟩
      rw [hb]
      exact hbil
  · rename_i hbil_ne
    split
    · rename_i hc
      have hmap := findLicense_map stT.licenses kt (fun l =>
          if l.license_key == kt then { l with expires_at := some (t + 365) } else l)
          (fun l => by dsimp only; split <;> rfl)
      refine ⟨(if licF.license_key == kt then { licF with expires_at := some (t + 365) }
          else licF), ?_, ?_, ?_, ?_, ?_⟩
      · rw [hmap, hf]
        rfl
      · split <;> rfl
      · split <;> rfl
      · split <;> rfl
      · split
        · intro habs
          simp at habs
        · rename_i hk_ne
          intro _
          refine Or.inr ?_
          revert hk_ne
          cases licF.license_key == kt <;> simp
    · rename_i hc
      refine ⟨licF, hf, rfl, rfl, rfl, ?_⟩
      intro hin
      exfalso
      apply hc
      rw [hx] at hin
      simp [hin]

/-- C4: `activate` is idempotent per (key, machine): if a first call
succeeds, the identical second call also succeeds, leaves the license
table (hence `current_activations`) and the log untouched, and changes
the activation table only by rewriting the matching row's
`last_verified` and `ip_address`. -/
theorem C4_activate_idempotent (st : ServerState) (k e m i : String) (t1 t2 : Int)
    (ty tr bi : String) (ex : Option Int) (ma : Int)
    (hw : WellKeyed st)
    (h1 : (activate st k e m i t1).snd = ActivateResult.success ty tr bi ex ma) :
    ∃ ty' tr' bi' ex' ma',
      (activate (activate st k e m i t1).fst k e m i t2).snd
        = ActivateResult.success ty' tr' bi' ex' ma' ∧
      (activate (activate st k e m i t1).fst k e m i t2).fst.licenses
        = (activate st k e m i t1).fst.licenses ∧
      (activate (activate st k e m i t1).fst k e m i t2).fst.log
        = (activate st k e m i t1).fst.log ∧
      (activate (activate st k e m i t1).fst k e m i t2).fst.activations
        = (activate st k e m i t1).fst.activations.map (fun a =>
            if a.license_key == strTrim k && a.machine_id == strTrim m then
              { a with last_verified := some t2, ip_address := some i }
            else a) := by
  simp only [activate] at h1
  split at h1
  · simp at h1
  rename_i hcond
  have hkem : (strTrim k == "") = false ∧ (strTrim e == "") = false
      ∧ (strTrim m == "") = false := by
    revert hcond
    cases strTrim k == "" <;> cases strTrim e == "" <;> cases strTrim m == "" <;> simp
  obtain ⟨hkb, heb, hmb⟩ := hkem
  split at h1
  · simp at h1
  rename_i lic0 heqF
  split at h1
  · simp at h1
  rename_i hstn
  split at h1
  · simp at h1
  rename_i hemn
  have hst : lic0.status = "active" := not_ne_iff.mp hstn
  have hem : lowerStr (strTrim e) = lowerStr lic0.email := not_ne_iff.mp hemn
  split at h1
  · -- EXISTING activation row: re-activation path in call 1
    rename_i a0 haF
    have hrun1 : activate st k e m i t1 =
        finishActivate { st with activations := st.activations.map (fun a =>
          if a.license_key == strTrim k && a.machine_id == strTrim m then
            { a with last_verified := some t1, ip_address := some i }
          else a) } lic0 (strTrim k) t1 := by
      simp only [activate, hkb, heb, hmb, Bool.or_self, Bool.false_or, heqF, haF]
      rw [hst, hem]
      simp
    rw [hrun1]
    obtain ⟨lic1, hf1, hst1, hem1, hbil1, hnoexp1⟩ :=
      findLicense_finish { st with activations := st.activations.map (fun a =>
          if a.license_key == strTrim k && a.machine_id == strTrim m then
            { a with last_verified := some t1, ip_address := some i }
          else a) } lic0 lic0 (strTrim k) t1 heqF rfl rfl
    have hw1 : WellKeyed (finishActivate { st with activations := st.activations.map (fun a =>
        if a.license_key == strTrim k && a.machine_id == strTrim m then
          { a with last_verified := some t1, ip_address := some i }
        else a) } lic0 (strTrim k) t1).fst :=
      wellKeyed_of_keys_eq (finishActivate_keys _ _ _ _) hw
    have hfa1 : (findActExact (finishActivate { st with activations := st.activations.map (fun a =>
        if a.license_key == strTrim k && a.machine_id == strTrim m then
          { a with last_verified := some t1, ip_address := some i }
        else a) } lic0 (strTrim k) t1).fst.activations (strTrim k) (strTrim m)).isSome
        = true := by
      rw [finishActivate_acts]
      have := findActExact_map st.activations (strTrim k) (strTrim m)
        (fun a => if a.license_key == strTrim k && a.machine_id == strTrim m then
          { a with last_verified := some t1, ip_address := some i } else a)
        (fun a => by dsimp only; split <;> rfl)
        (fun a => by dsimp only; split <;> rfl)
      rw [this, haF]
      rfl
    exact second_call_after _ k e m i t2 lic1 hw1 hkb heb hmb hf1 (hst1.trans hst)
      (hem.trans (congrArg lowerStr hem1).symm) hfa1 hnoexp1
  · -- NEW activation: insert path in call 1
    rename_i haF
    split at h1
    · simp at h1
    rename_i hlim_ne
    have hrun1 : activate st k e m i t1 =
        finishActivate { st with
          activations := st.activations ++
            [{ license_key := strTrim k, machine_id := strTrim m, ip_address := some i,
               activated_at := t1, last_verified := some t1, status := "active" }],
          licenses := st.licenses.map (fun l =>
            if l.license_key == strTrim k then
              { l with current_activations := l.current_activations + 1,
                       activated_at := some (l.activated_at.getD t1) }
            else l) } lic0 (strTrim k) t1 := by
      simp only [activate, hkb, heb, hmb, Bool.or_self, Bool.false_or, heqF, haF]
      rw [hst, hem]
      rw [if_neg hlim_ne]
      simp
    rw [hrun1]
    have hfT : findLicense (st.licenses.map (fun l =>
        if l.license_key == strTrim k then
          { l with current_activations := l.current_activations + 1,
                   activated_at := some (l.activated_at.getD t1) }
        else l)) (strTrim k) = some (if lic0.license_key == strTrim k then
          { lic0 with current_activations := lic0.current_activations + 1,
                      activated_at := some (lic0.activated_at.getD t1) }
        else lic0) := by
      rw [findLicense_map st.licenses (strTrim k) _ (fun l => by split <;> rfl),
        heqF]
      rfl
    obtain ⟨lic1, hf1, hst1, hem1, hbil1, hnoexp1⟩ :=
      findLicense_finish { st with
          activations := st.activations ++
            [{ license_key := strTrim k, machine_id := strTrim m, ip_address := some i,
               activated_at := t1, last_verified := some t1, status := "active" }],
          licenses := st.licenses.map (fun l =>
            if l.license_key == strTrim k then
              { l with current_activations := l.current_activations + 1,
                       activated_at := some (l.activated_at.getD t1) }
            else l) } lic0
        (if lic0.license_key == strTrim k then
          { lic0 with current_activations := lic0.current_activations + 1,
                      activated_at := some (lic0.activated_at.getD t1) }
        else lic0) (strTrim k) t1 hfT (by split <;> rfl) (by split <;> rfl)
    have hw1 : WellKeyed (finishActivate { st with
        activations := st.activations ++
          [{ license_key := strTrim k, machine_id := strTrim m, ip_address := some i,
             activated_at := t1, last_verified := some t1, status := "active" }],
        licenses := st.licenses.map (fun l =>
          if l.license_key == strTrim k then
            { l with current_activations := l.current_activations + 1,
                     activated_at := some (l.activated_at.getD t1) }
          else l) } lic0 (strTrim k) t1).fst := by
      apply wellKeyed_of_keys_eq ?_ hw
      rw [finishActivate_keys]
      exact keys_map_of_update _ _ (fun l => by split <;> rfl)
    have hfa1 : (findActExact (finishActivate { st with
        activations := st.activations ++
          [{ license_key := strTrim k, machine_id := strTrim m, ip_address := some i,
             activated_at := t1, last_verified := some t1, status := "active" }],
        licenses := st.licenses.map (fun l =>
          if l.license_key == strTrim k then
            { l with current_activations := l.current_activations + 1,
                     activated_at := some (l.activated_at.getD t1) }
          else l) } lic0 (strTrim k) t1).fst.activations (strTrim k) (strTrim m)).isSome
        = true := by
      rw [finishActivate_acts]
      show (findActExact (st.activations ++ _) (strTrim k) (strTrim m)).isSome = true
      unfold findActExact at haF ⊢
      rw [List.find?_append, haF]
      simp
    have hstF : lic1.status = "active" := by
      rw [hst1]
      split <;> exact hst
    have hemF : lowerStr (strTrim e) = lowerStr lic1.email := by
      rw [hem1]
      split <;> exact hem
    exact second_call_after _ k e m i t2 lic1 hw1 hkb heb hmb hf1 hstF hemF hfa1 hnoexp1


/-- C4 witness: activating `sampleLicense` twice on `M1`. -/
theorem C4_witness :
    ∃ ty' tr' bi' ex' ma',
      (activate (activate sampleState "UPAGER-AAAA-BBBB-CCCC-DDDD" "a@x.com" "M1" "ip" 5).fst
          "UPAGER-AAAA-BBBB-CCCC-DDDD" "a@x.com" "M1" "ip" 9).snd
        = ActivateResult.success ty' tr' bi' ex' ma' ∧
      (activate (activate sampleState "UPAGER-AAAA-BBBB-CCCC-DDDD" "a@x.com" "M1" "ip" 5).fst
          "UPAGER-AAAA-BBBB-CCCC-DDDD" "a@x.com" "M1" "ip" 9).fst.licenses
        = (activate sampleState "UPAGER-AAAA-BBBB-CCCC-DDDD" "a@x.com" "M1" "ip" 5).fst.licenses ∧
      (activate (activate sampleState "UPAGER-AAAA-BBBB-CCCC-DDDD" "a@x.com" "M1" "ip" 5).fst
          "UPAGER-AAAA-BBBB-CCCC-DDDD" "a@x.com" "M1" "ip" 9).fst.log
        = (activate sampleState "UPAGER-AAAA-BBBB-CCCC-DDDD" "a@x.com" "M1" "ip" 5).fst.log ∧
      (activate (activate sampleState "UPAGER-AAAA-BBBB-CCCC-DDDD" "a@x.com" "M1" "ip" 5).fst
          "UPAGER-AAAA-BBBB-CCCC-DDDD" "a@x.com" "M1" "ip" 9).fst.activations
        = (activate sampleState "UPAGER-AAAA-BBBB-CCCC-DDDD" "a@x.com" "M1" "ip" 5).fst.activations.map
            (fun a =>
              if a.license_key == strTrim "UPAGER-AAAA-BBBB-CCCC-DDDD"
                  && a.machine_id == strTrim "M1" then
                { a with last_verified := some 9, ip_address := some "ip" }
              else a) :=
  C4_activate_idempotent sampleState "UPAGER-AAAA-BBBB-CCCC-DDDD" "a@x.com" "M1" "ip" 5 9
    "pro" "pro_lifetime" "one-time" none 370
    (by unfold WellKeyed; decide) (by decide)

/-! ## C7 -/

lemma hexUp_ok : ∀ n, n < 16 → isUpHexDigit (Char.toUpper (hexDigit n)) = true := by decide

/-- C7 counterexample: the claim's sourcing sentence ("16 bytes of
entropy, hex-encoded, uppercased, grouped in 4-character blocks")
contradicts its own format sentence: 16 bytes hex-encode to 32 digits,
i.e. eight 4-character groups and a 46-character key, which is not of
the form `PREFIX-XXXX-XXXX-XXXX-XXXX`; the code in fact draws 8 bytes
(`secrets.token_hex(8)`). -/
theorem C7_sixteen_bytes_contradict_format :
    keyFormatOk (specKeyFromBytes
      [0, 1, 2, 3, 4, 5, 6, 7, 8, 9, 10, 11, 12, 13, 14, 15]) = false ∧
    (specKeyFromBytes
      [0, 1, 2, 3, 4, 5, 6, 7, 8, 9, 10, 11, 12, 13, 14, 15]).data.length = 46 ∧
    keyFormatOk (generate_license_key "pro_lifetime"
      [0, 1, 2, 3, 4, 5, 6, 7]) = true ∧
    (generate_license_key "pro_lifetime" [0, 1, 2, 3, 4, 5, 6, 7]).data.length = 26 := by
  refine ⟨?_, ?_, ?_, ?_⟩ <;> decide

/-- C7 (amended): for any 8 input bytes — the amount `secrets.token_hex(8)`
draws — the generated key has the exact form
`UPAGER-XXXX-XXXX-XXXX-XXXX` with uppercase hex digits, and the tier
argument has no influence on the key. -/
theorem C7_key_format (t1 t2 : String) (b1 b2 b3 b4 b5 b6 b7 b8 : Nat)
    (h1 : b1 < 256) (h2 : b2 < 256) (h3 : b3 < 256) (h4 : b4 < 256)
    (h5 : b5 < 256) (h6 : b6 < 256) (h7 : b7 < 256) (h8 : b8 < 256) :
    keyFormatOk (generate_license_key t1 [b1, b2, b3, b4, b5, b6, b7, b8]) = true ∧
    generate_license_key t1 [b1, b2, b3, b4, b5, b6, b7, b8]
      = generate_license_key t2 [b1, b2, b3, b4, b5, b6, b7, b8] := by
  refine ⟨?_, rfl⟩
  have hred : keyFormatOk (generate_license_key t1 [b1, b2, b3, b4, b5, b6, b7, b8]) =
      ([Char.toUpper (hexDigit (b1 / 16)), Char.toUpper (hexDigit (b1 % 16)),
        Char.toUpper (hexDigit (b2 / 16)), Char.toUpper (hexDigit (b2 % 16)),
        Char.toUpper (hexDigit (b3 / 16)), Char.toUpper (hexDigit (b3 % 16)),
        Char.toUpper (hexDigit (b4 / 16)), Char.toUpper (hexDigit (b4 % 16)),
        Char.toUpper (hexDigit (b5 / 16)), Char.toUpper (hexDigit (b5 % 16)),
        Char.toUpper (hexDigit (b6 / 16)), Char.toUpper (hexDigit (b6 % 16)),
        Char.toUpper (hexDigit (b7 / 16)), Char.toUpper (hexDigit (b7 % 16)),
        Char.toUpper (hexDigit (b8 / 16)), Char.toUpper (hexDigit (b8 % 16))].all
          isUpHexDigit) := rfl
  rw [hred]
  simp only [List.all_cons, List.all_nil, Bool.and_eq_true]
  refine ⟨?_, ?_, ?_, ?_, ?_, ?_, ?_, ?_, ?_, ?_, ?_, ?_, ?_, ?_, ?_, ?_, trivial⟩ <;>
    apply hexUp_ok <;> omega

/-- C7 witness: a concrete byte draw. -/
theorem C7_key_format_witness :
    keyFormatOk (generate_license_key "pro_lifetime"
      [0, 17, 255, 34, 51, 68, 85, 102]) = true ∧
    generate_license_key "pro_lifetime" [0, 17, 255, 34, 51, 68, 85, 102]
      = generate_license_key "free" [0, 17, 255, 34, 51, 68, 85, 102] :=
  C7_key_format "pro_lifetime" "free" 0 17 255 34 51 68 85 102
    (by decide) (by decide) (by decide) (by decide)
    (by decide) (by decide) (by decide) (by decide)

/-! ## C9 -/

/-- C9: `verify` never inspects the activation row's `status`: on a
database whose only activation row for the pair is `deactivated`, with
the license itself active and not expired, `verify` still answers
`valid=true` with the usual payload. -/
theorem C9_verify_ignores_activation_status
    (L : License) (A : Activation) (lg : List LogEntry) (k m : String) (t : Int)
    (hk : strTrim k = L.license_key) (hk0 : L.license_key ≠ "")
    (hm : strTrim m = A.machine_id) (hm0 : A.machine_id ≠ "")
    (hst : L.status = "active")
    (hkey : upperStr A.license_key = upperStr L.license_key)
    (hdeact : A.status = "deactivated")
    (hexp : isExpired L.billing_type L.expires_at t = false) :
    (verify ⟨[L], [A], lg⟩ k m t).snd =
      VerifyResult.valid L.type L.tier L.billing_type L.expires_at
        (if L.billing_type == "one-time" then some (A.activated_at + 365)
         else L.expires_at) := by
  have hkb : (strTrim k == "") = false := by simp [hk, hk0]
  have hmb : (strTrim m == "") = false := by simp [hm, hm0]
  have hfl : findLicense [L] (strTrim k) = some L := by
    unfold findLicense
    apply List.find?_cons_of_pos
    simp [hk]
  have hja : joinActivation [A] L.license_key (strTrim m) = some A := by
    unfold joinActivation
    apply List.find?_cons_of_pos
    simp [hm, hkey]
  simp only [verify, hkb, hmb, Bool.or_self, hfl, hja, hst, hexp]
  simp

/-- C9 witness: verifying `sampleLicense` on machine `M1` after its row
was deactivated still succeeds. -/
theorem C9_witness :
    (verify ⟨[sampleLicense], [deactivatedRow], []⟩
        "UPAGER-AAAA-BBBB-CCCC-DDDD" "M1" 10).snd =
      VerifyResult.valid sampleLicense.type sampleLicense.tier sampleLicense.billing_type
        sampleLicense.expires_at
        (if sampleLicense.billing_type == "one-time" then some (deactivatedRow.activated_at + 365)
         else sampleLicense.expires_at) :=
  C9_verify_ignores_activation_status sampleLicense deactivatedRow []
    "UPAGER-AAAA-BBBB-CCCC-DDDD" "M1" 10
    (by decide) (by decide) (by decide) (by decide) (by decide) (by decide)
    (by decide) (by decide)

/-! ## C10 -/

/-- C10: when every activation row matching the pair (case-insensitive
key, exact machine) is already `deactivated`, `deactivate` answers the
`No active activation found` error and leaves the entire state — in
particular the activation rows and every license's
`current_activations` — unchanged. -/
theorem C10_deactivate_is_noop_on_deactivated_row
    (st : ServerState) (k m : String)
    (hk0 : strTrim k ≠ "") (hm0 : strTrim m ≠ "")
    (hrow : ∃ a ∈ st.activations, upperStr a.license_key = upperStr (strTrim k) ∧
      a.machine_id = strTrim m ∧ a.status = "deactivated")
    (hall : ∀ a ∈ st.activations, upperStr a.license_key = upperStr (strTrim k) →
      a.machine_id = strTrim m → a.status ≠ "active") :
    deactivate st k m = (st, DeactivateResult.error "No active activation found") := by
  have hany : (st.activations.any fun a =>
      upperStr a.license_key == upperStr (strTrim k) && a.machine_id == strTrim m
        && a.status == "active") = false := by
    rw [List.any_eq_false]
    intro a ha
    simp only [Bool.and_eq_true, beq_iff_eq, not_and]
    intro h1
    exact hall a ha h1.1 h1.2
  unfold deactivate
  simp [hany, hk0, hm0]

/-- C10 witness: double deactivation of `M1` on `sampleLicense`. -/
theorem C10_witness :
    deactivate ⟨[sampleLicense], [deactivatedRow], []⟩
        "UPAGER-AAAA-BBBB-CCCC-DDDD" "M1" =
      (⟨[sampleLicense], [deactivatedRow], []⟩,
        DeactivateResult.error "No active activation found") :=
  C10_deactivate_is_noop_on_deactivated_row ⟨[sampleLicense], [deactivatedRow], []⟩
    "UPAGER-AAAA-BBBB-CCCC-DDDD" "M1" (by decide) (by decide)
    ⟨deactivatedRow, by decide, by decide, by decide, by decide⟩
    (by decide)

end UL
